import Mathlib

/-!
Verification of the face-rectangle normalizer and the storage-relay
endpoints of `server.js`.

The normalizer (route `POST /detectFaces`) maps each detection result to
an axis-aligned rectangle built from the min/max of the numeric vertex
coordinates, drops results with no usable coordinate on some axis, and
sorts the rectangles by their left edge with a stable sort.

The storage relay (`POST /uploadPdfDirect`, `GET /menu_current`,
`GET /boardpass_current`, `GET /boarding_current`) is modelled as a pure
function over an abstract object store (name to bytes).
-/

namespace Server

/-- One vertex of a bounding polygon: each coordinate is present-and-numeric
or missing (`typeof v.x === "number"` in the source). -/
structure Vertex where
  x : Option Int
  y : Option Int
deriving DecidableEq, Repr

/-- One detection result (`face` in the source): its `boundingPoly.vertices`
list, already defaulted to `[]` when absent. -/
structure Face where
  vertices : List Vertex
deriving DecidableEq, Repr

/-- An output rectangle `{x, y, w, h}`. -/
structure Rectangle where
  x : Int
  y : Int
  w : Int
  h : Int
deriving DecidableEq, Repr

/-- The x-coordinates pushed onto `xs` by the `verts.forEach` loop:
those that are present and numeric, in vertex order. -/
def xsOf (a : Face) : List Int :=
  a.vertices.filterMap Vertex.x

/-- The y-coordinates pushed onto `ys` by the `verts.forEach` loop. -/
def ysOf (a : Face) : List Int :=
  a.vertices.filterMap Vertex.y

/-- `Math.min(...xs)` on a non-empty list (the empty case is guarded
before every use in the source). -/
def minList : List Int → Int
  | [] => 0
  | v :: vs => vs.foldl min v

/-- `Math.max(...xs)` on a non-empty list. -/
def maxList : List Int → Int
  | [] => 0
  | v :: vs => vs.foldl max v

/-- The body of the `.map` callback in `/detectFaces`: `null` (here `none`)
when either coordinate list is empty, otherwise the min/max rectangle. -/
def toRect (a : Face) : Option Rectangle :=
  let xs := xsOf a
  let ys := ysOf a
  if xs.isEmpty || ys.isEmpty then none
  else some { x := minList xs, y := minList ys,
              w := maxList xs - minList xs,
              h := maxList ys - minList ys }

/-- The ordering used by `.sort((a, b) => a.x - b.x)`. -/
def rectLE (a b : Rectangle) : Prop := a.x ≤ b.x

instance : DecidableRel rectLE := fun a b => inferInstanceAs (Decidable (a.x ≤ b.x))

instance : IsTotal Rectangle rectLE := ⟨fun a b => Int.le_total a.x b.x⟩

instance : IsTrans Rectangle rectLE := ⟨fun _ _ _ hab hbc => le_trans hab hbc⟩

/-- The stable sort by `x` (JavaScript `Array.prototype.sort` is stable,
and the comparator `a.x - b.x` orders by `x`). -/
def sortByX (l : List Rectangle) : List Rectangle :=
  l.insertionSort rectLE

/-- The whole `/detectFaces` transformation:
`annotations.map(...).filter(Boolean).sort((a, b) => a.x - b.x)`. -/
def normalize (l : List Face) : List Rectangle :=
  sortByX (l.filterMap toRect)

/-- Boolean test that a rectangle has left edge `v` (used to state sort
stability: the equal-`x` subsequence is preserved). -/
def keyEq (v : Int) (r : Rectangle) : Bool := r.x == v

/-! ### Storage relay model -/

def MENU_OBJECT : String := "menu_current.pdf"

def BOARDPASS_OBJECT : String := "boardpass_current.pdf"

def LEGACY_BOARDING_OBJECT : String := "boarding_current.pdf"

def ALLOWED_OBJECTS : List String :=
  [MENU_OBJECT, BOARDPASS_OBJECT, LEGACY_BOARDING_OBJECT]

/-- The object store: object name to stored bytes (or nothing). -/
def Store : Type := String → Option (List Nat)

/-- The body of a `POST /uploadPdfDirect` request. -/
structure UploadReq where
  pdfBase64 : Option String
  objectName : Option String

/-- The response of `POST /uploadPdfDirect` (status plus JSON fields). -/
structure UploadResp where
  status : Nat
  ok : Bool
  objectName : Option String
  error : Option String
deriving DecidableEq, Repr

/-- The JavaScript `String.prototype.trim` call of the handler: drop
whitespace at both ends of the string. -/
def jsTrim (s : String) : String :=
  ⟨((s.data.dropWhile Char.isWhitespace).reverse.dropWhile Char.isWhitespace).reverse⟩

/-- `(req.body?.objectName || MENU_OBJECT).trim()`: a missing or falsy
(empty-string) name defaults to the menu object, then is trimmed. -/
def requestedName (req : UploadReq) : String :=
  jsTrim (match req.objectName with
          | none => MENU_OBJECT
          | some s => if s = "" then MENU_OBJECT else s)

/-- The `POST /uploadPdfDirect` handler over the store state; `decode`
stands for the external `Buffer.from(pdfBase64, "base64")`. -/
def uploadPdfDirect (decode : String → List Nat) (req : UploadReq) (st : Store) :
    UploadResp × Store :=
  match req.pdfBase64 with
  | none =>
      ({ status := 400, ok := false, objectName := none,
         error := some "No pdfBase64 provided" }, st)
  | some pdf =>
      if pdf = "" then
        ({ status := 400, ok := false, objectName := none,
           error := some "No pdfBase64 provided" }, st)
      else
        let objectName := requestedName req
        if objectName ∈ ALLOWED_OBJECTS then
          ({ status := 200, ok := true, objectName := some objectName,
             error := none },
           fun k => if k = objectName then some (decode pdf) else st k)
        else
          ({ status := 400, ok := false, objectName := none,
             error := some "Invalid objectName" }, st)

/-- `GET /menu_current`: downloads the blob stored under `MENU_OBJECT`. -/
def getMenuCurrent (st : Store) : Option (List Nat) := st MENU_OBJECT

/-- `GET /boardpass_current`: downloads the blob under `BOARDPASS_OBJECT`. -/
def getBoardpassCurrent (st : Store) : Option (List Nat) := st BOARDPASS_OBJECT

/-- `GET /boarding_current`: the legacy route also downloads the blob under
`BOARDPASS_OBJECT` (the source comment: serve the new boardpass file). -/
def getBoardingCurrent (st : Store) : Option (List Nat) := st BOARDPASS_OBJECT

/-! ### Helper lemmas -/

lemma foldl_min_le_foldl_max (l : List Int) :
    ∀ x y : Int, x ≤ y → l.foldl min x ≤ l.foldl max y := by
  induction l with
  | nil => intro x y h; simpa using h
  | cons a t ih =>
      intro x y h
      simp only [List.foldl]
      exact ih _ _ (le_trans (min_le_left x a) (le_trans h (le_max_left y a)))

lemma minList_le_maxList (l : List Int) (h : l ≠ []) : minList l ≤ maxList l := by
  cases l with
  | nil => exact absurd rfl h
  | cons a t => exact foldl_min_le_foldl_max t a a le_rfl

lemma toRect_of_ne {a : Face} (hx : xsOf a ≠ []) (hy : ysOf a ≠ []) :
    toRect a = some { x := minList (xsOf a), y := minList (ysOf a),
                      w := maxList (xsOf a) - minList (xsOf a),
                      h := maxList (ysOf a) - minList (ysOf a) } := by
  simp [toRect, List.isEmpty_iff, hx, hy]

lemma toRect_none_of_degenerate {a : Face} (h : xsOf a = [] ∨ ysOf a = []) :
    toRect a = none := by
  rcases h with h | h <;> simp [toRect, h]

lemma toRect_some {a : Face} {r : Rectangle} (h : toRect a = some r) :
    xsOf a ≠ [] ∧ ysOf a ≠ [] ∧
      r = { x := minList (xsOf a), y := minList (ysOf a),
            w := maxList (xsOf a) - minList (xsOf a),
            h := maxList (ysOf a) - minList (ysOf a) } := by
  by_cases hx : xsOf a = []
  · rw [toRect_none_of_degenerate (Or.inl hx)] at h; cases h
  · by_cases hy : ysOf a = []
    · rw [toRect_none_of_degenerate (Or.inr hy)] at h; cases h
    · rw [toRect_of_ne hx hy] at h
      exact ⟨hx, hy, (Option.some.injEq _ _ ▸ h).symm⟩

lemma mem_normalize {l : List Face} {r : Rectangle} :
    r ∈ normalize l ↔ r ∈ l.filterMap toRect :=
  (List.perm_insertionSort rectLE (l.filterMap toRect)).mem_iff

lemma filter_orderedInsert (v : Int) (a : Rectangle) (l : List Rectangle) :
    (List.orderedInsert rectLE a l).filter (keyEq v) =
      if keyEq v a then a :: l.filter (keyEq v) else l.filter (keyEq v) := by
  induction l with
  | nil => by_cases ha : keyEq v a <;> simp [List.orderedInsert, ha]
  | cons b t ih =>
      by_cases hab : rectLE a b
      · by_cases ha : keyEq v a <;> simp [List.orderedInsert, hab, ha, List.filter]
      · have hba : b.x < a.x := lt_of_not_le hab
        by_cases ha : keyEq v a
        · have hav : a.x = v := by simpa [keyEq] using ha
          have hbv : keyEq v b = false := by
            simp only [keyEq, beq_eq_false_iff_ne, ne_eq]
            omega
          simp [List.orderedInsert, hab, List.filter, hbv, ih, ha]
        · simp [List.orderedInsert, hab, List.filter, ih, ha]

lemma filter_insertionSort (v : Int) (l : List Rectangle) :
    (l.insertionSort rectLE).filter (keyEq v) = l.filter (keyEq v) := by
  induction l with
  | nil => rfl
  | cons a t ih =>
      rw [List.insertionSort, filter_orderedInsert, ih]
      by_cases ha : keyEq v a <;> simp [List.filter, ha]

lemma length_filterMap_lt {α β : Type} (f : α → Option β) (l : List α)
    (h : ∃ a ∈ l, f a = none) : (l.filterMap f).length < l.length := by
  induction l with
  | nil => simp at h
  | cons b t ih =>
      rcases h with ⟨a, ha, hfa⟩
      rcases List.mem_cons.mp ha with rfl | hat
      · rw [List.filterMap_cons, hfa]
        exact Nat.lt_succ_of_le (List.length_filterMap_le f t)
      · cases hfb : f b with
        | none =>
            rw [List.filterMap_cons, hfb]
            exact Nat.lt_succ_of_le (List.length_filterMap_le f t)
        | some y =>
            rw [List.filterMap_cons, hfb, List.length_cons, List.length_cons]
            exact Nat.succ_lt_succ (ih ⟨a, hat, hfa⟩)

/-! ### Concrete inputs used by the witnesses -/

def face1 : Face :=
  { vertices := [{ x := some 10, y := some 5 }, { x := some 50, y := some 40 }] }

def faceDeg : Face := { vertices := [{ x := some 5, y := none }] }

def emptyStore : Store := fun _ => none

def badReq : UploadReq := { pdfBase64 := some "QUJD", objectName := some "evil.pdf" }

def legacyReq : UploadReq :=
  { pdfBase64 := some "QUJD", objectName := some "boarding_current.pdf" }

def defaultReq : UploadReq := { pdfBase64 := some "QUJD", objectName := none }

/-! ### Claims -/

/-- Claim C1: a detection whose numeric x-list and y-list are both non-empty
is mapped to exactly one rectangle, the min/max rectangle of its numeric
coordinates (the whole output being a permutation of the per-detection
results), and a single vertex with both coordinates numeric yields a
zero-area rectangle. -/
theorem claim1_minmax_rectangle (l : List Face) (a : Face) (cx cy : Int)
    (hx : xsOf a ≠ []) (hy : ysOf a ≠ []) :
    toRect a = some { x := minList (xsOf a), y := minList (ysOf a),
                      w := maxList (xsOf a) - minList (xsOf a),
                      h := maxList (ysOf a) - minList (ysOf a) } ∧
    (normalize l).Perm (l.filterMap toRect) ∧
    toRect { vertices := [{ x := some cx, y := some cy }] } =
      some { x := cx, y := cy, w := 0, h := 0 } := by
  refine ⟨toRect_of_ne hx hy, ?_, ?_⟩
  · exact List.perm_insertionSort rectLE (l.filterMap toRect)
  · simp [toRect, xsOf, ysOf, minList, maxList]

theorem claim1_minmax_rectangle_witness :
    (xsOf face1 ≠ [] ∧ ysOf face1 ≠ []) ∧
    (toRect face1 = some { x := minList (xsOf face1), y := minList (ysOf face1),
                           w := maxList (xsOf face1) - minList (xsOf face1),
                           h := maxList (ysOf face1) - minList (ysOf face1) } ∧
      (normalize [face1]).Perm ([face1].filterMap toRect) ∧
      toRect { vertices := [{ x := some (7 : Int), y := some (9 : Int) }] } =
        some { x := 7, y := 9, w := 0, h := 0 }) :=
  ⟨⟨by decide, by decide⟩,
    claim1_minmax_rectangle [face1] face1 7 9 (by decide) (by decide)⟩

/-- Claim C2: the output of the normalizer is sorted non-decreasing by `x`,
and the sort is stable: for every key `v`, the subsequence of output
rectangles with `x = v` equals the corresponding subsequence of the
surviving rectangles in input order. -/
theorem claim2_sorted_stable (l : List Face) :
    List.Sorted rectLE (normalize l) ∧
    ∀ v : Int, (normalize l).filter (keyEq v) = (l.filterMap toRect).filter (keyEq v) := by
  constructor
  · exact List.sorted_insertionSort rectLE (l.filterMap toRect)
  · intro v
    exact filter_insertionSort v (l.filterMap toRect)

theorem claim2_sorted_stable_witness :
    List.Sorted rectLE (normalize [face1, faceDeg]) ∧
    ∀ v : Int, (normalize [face1, faceDeg]).filter (keyEq v) =
      ([face1, faceDeg].filterMap toRect).filter (keyEq v) :=
  claim2_sorted_stable [face1, faceDeg]

/-- Claim C3: a detection with no numeric x-coordinate or no numeric
y-coordinate maps to `none` and is entirely absent from the output:
removing it from the input leaves the output unchanged. -/
theorem claim3_degenerate_absent (l₁ l₂ : List Face) (a : Face)
    (h : xsOf a = [] ∨ ysOf a = []) :
    toRect a = none ∧ normalize (l₁ ++ a :: l₂) = normalize (l₁ ++ l₂) := by
  have hn := toRect_none_of_degenerate h
  refine ⟨hn, ?_⟩
  simp [normalize, List.filterMap_append, List.filterMap_cons, hn]

theorem claim3_degenerate_absent_witness :
    (xsOf faceDeg = [] ∨ ysOf faceDeg = []) ∧
    (toRect faceDeg = none ∧
      normalize ([face1] ++ faceDeg :: []) = normalize ([face1] ++ [])) :=
  ⟨Or.inr (by decide), claim3_degenerate_absent [face1] [] faceDeg (Or.inr (by decide))⟩

/-- Claim C4: every rectangle in the output of the normalizer has
non-negative width and height. -/
theorem claim4_nonneg (l : List Face) (r : Rectangle) (hr : r ∈ normalize l) :
    0 ≤ r.w ∧ 0 ≤ r.h := by
  obtain ⟨a, _, hfa⟩ := List.mem_filterMap.mp (mem_normalize.mp hr)
  obtain ⟨hx, hy, rfl⟩ := toRect_some hfa
  exact ⟨sub_nonneg.mpr (minList_le_maxList _ hx),
         sub_nonneg.mpr (minList_le_maxList _ hy)⟩

theorem claim4_nonneg_witness :
    ({ x := 10, y := 5, w := 40, h := 35 } : Rectangle) ∈ normalize [face1] ∧
    (0 ≤ ({ x := 10, y := 5, w := 40, h := 35 } : Rectangle).w ∧
     0 ≤ ({ x := 10, y := 5, w := 40, h := 35 } : Rectangle).h) := by
  have hm : ({ x := 10, y := 5, w := 40, h := 35 } : Rectangle) ∈ normalize [face1] := by
    decide
  exact ⟨hm, claim4_nonneg [face1] _ hm⟩

/-- Claim C5: the output is never longer than the input, strictly shorter
when some input detection is degenerate, and the empty input yields the
empty output. -/
theorem claim5_length (l : List Face) :
    (normalize l).length ≤ l.length ∧
    ((∃ a ∈ l, xsOf a = [] ∨ ysOf a = []) → (normalize l).length < l.length) ∧
    normalize ([] : List Face) = [] := by
  have hlen : (normalize l).length = (l.filterMap toRect).length := by
    exact List.length_insertionSort rectLE (l.filterMap toRect)
  refine ⟨?_, ?_, rfl⟩
  · exact hlen ▸ List.length_filterMap_le toRect l
  · intro hd
    obtain ⟨a, ha, h⟩ := hd
    exact hlen ▸ length_filterMap_lt toRect l ⟨a, ha, toRect_none_of_degenerate h⟩

theorem claim5_length_witness :
    (normalize [face1, faceDeg]).length ≤ ([face1, faceDeg] : List Face).length ∧
    ((∃ a ∈ [face1, faceDeg], xsOf a = [] ∨ ysOf a = []) →
      (normalize [face1, faceDeg]).length < ([face1, faceDeg] : List Face).length) ∧
    normalize ([] : List Face) = [] :=
  claim5_length [face1, faceDeg]

/-- Claim C6: the normalizer is total — on every input list it returns a
rectangle list, and every returned rectangle arises from some input
detection by the per-detection mapping; malformed detections are filtered
away rather than causing a failure. -/
theorem claim6_total_filters (l : List Face) :
    ∃ rs : List Rectangle, normalize l = rs ∧ ∀ r ∈ rs, ∃ a ∈ l, toRect a = some r := by
  refine ⟨normalize l, rfl, fun r hr => ?_⟩
  obtain ⟨a, ha, hfa⟩ := List.mem_filterMap.mp (mem_normalize.mp hr)
  exact ⟨a, ha, hfa⟩

theorem claim6_total_filters_witness :
    ∃ rs : List Rectangle, normalize [face1, faceDeg] = rs ∧
      ∀ r ∈ rs, ∃ a ∈ [face1, faceDeg], toRect a = some r :=
  claim6_total_filters [face1, faceDeg]

/-- Claim C7: the normalizer is deterministic — equal inputs produce equal
outputs. -/
theorem claim7_deterministic (l₁ l₂ : List Face) (h : l₁ = l₂) :
    normalize l₁ = normalize l₂ := by rw [h]

theorem claim7_deterministic_witness :
    [face1] = [face1] ∧ normalize [face1] = normalize [face1] :=
  ⟨rfl, claim7_deterministic [face1] [face1] rfl⟩

/-- Claim C8: an upload carrying a pdf payload whose resolved object name
(after defaulting and trimming) is outside the allow-list is answered with
status 400 and leaves the store unchanged. -/
theorem claim8_reject_unknown_name (decode : String → List Nat) (req : UploadReq)
    (st : Store) (pdf : String) (hp : req.pdfBase64 = some pdf) (hne : pdf ≠ "")
    (hn : requestedName req ∉ ALLOWED_OBJECTS) :
    (uploadPdfDirect decode req st).1.status = 400 ∧
    (uploadPdfDirect decode req st).2 = st := by
  simp [uploadPdfDirect, hp, hne, hn]

theorem claim8_reject_unknown_name_witness :
    badReq.pdfBase64 = some "QUJD" ∧ "QUJD" ≠ "" ∧
    requestedName badReq ∉ ALLOWED_OBJECTS ∧
    ((uploadPdfDirect (fun _ => []) badReq emptyStore).1.status = 400 ∧
     (uploadPdfDirect (fun _ => []) badReq emptyStore).2 = emptyStore) :=
  ⟨rfl, by decide, by decide,
    claim8_reject_unknown_name (fun _ => []) badReq emptyStore "QUJD" rfl
      (by decide) (by decide)⟩

/-- Claim C9: the legacy download route reads the blob stored under the new
object name `boardpass_current.pdf`, and an upload targeting the legacy
name `boarding_current.pdf` changes the result of no download route. -/
theorem claim9_legacy_serves_new (decode : String → List Nat) (req : UploadReq)
    (st : Store) (pdf : String) (hp : req.pdfBase64 = some pdf) (hne : pdf ≠ "")
    (hn : requestedName req = LEGACY_BOARDING_OBJECT) :
    getBoardingCurrent st = st BOARDPASS_OBJECT ∧
    getMenuCurrent (uploadPdfDirect decode req st).2 = getMenuCurrent st ∧
    getBoardpassCurrent (uploadPdfDirect decode req st).2 = getBoardpassCurrent st ∧
    getBoardingCurrent (uploadPdfDirect decode req st).2 = getBoardingCurrent st := by
  have hmem : LEGACY_BOARDING_OBJECT ∈ ALLOWED_OBJECTS := by decide
  have h1 : ¬ (MENU_OBJECT = LEGACY_BOARDING_OBJECT) := by decide
  have h2 : ¬ (BOARDPASS_OBJECT = LEGACY_BOARDING_OBJECT) := by decide
  have hst : (uploadPdfDirect decode req st).2 =
      fun k => if k = LEGACY_BOARDING_OBJECT then some (decode pdf) else st k := by
    simp [uploadPdfDirect, hp, hne, hn, hmem]
  refine ⟨rfl, ?_, ?_, ?_⟩ <;>
    simp [getMenuCurrent, getBoardpassCurrent, getBoardingCurrent, hst, h1, h2]

theorem claim9_legacy_serves_new_witness :
    legacyReq.pdfBase64 = some "QUJD" ∧ "QUJD" ≠ "" ∧
    requestedName legacyReq = LEGACY_BOARDING_OBJECT ∧
    (getBoardingCurrent emptyStore = emptyStore BOARDPASS_OBJECT ∧
     getMenuCurrent (uploadPdfDirect (fun _ => []) legacyReq emptyStore).2 =
       getMenuCurrent emptyStore ∧
     getBoardpassCurrent (uploadPdfDirect (fun _ => []) legacyReq emptyStore).2 =
       getBoardpassCurrent emptyStore ∧
     getBoardingCurrent (uploadPdfDirect (fun _ => []) legacyReq emptyStore).2 =
       getBoardingCurrent emptyStore) :=
  ⟨rfl, by decide, by decide,
    claim9_legacy_serves_new (fun _ => []) legacyReq emptyStore "QUJD" rfl
      (by decide) (by decide)⟩

/-- Claim C10: an upload carrying a pdf payload with a missing (or falsy)
object name defaults to `menu_current.pdf`: it succeeds with status 200,
reports that object name, and writes the decoded bytes under it. -/
theorem claim10_default_menu (decode : String → List Nat) (req : UploadReq)
    (st : Store) (pdf : String) (hp : req.pdfBase64 = some pdf) (hne : pdf ≠ "")
    (hf : req.objectName = none ∨ req.objectName = some "") :
    (uploadPdfDirect decode req st).1.status = 200 ∧
    (uploadPdfDirect decode req st).1.ok = true ∧
    (uploadPdfDirect decode req st).1.objectName = some MENU_OBJECT ∧
    (uploadPdfDirect decode req st).2 MENU_OBJECT = some (decode pdf) := by
  have htrim : jsTrim MENU_OBJECT = MENU_OBJECT := by decide
  have hname : requestedName req = MENU_OBJECT := by
    rcases hf with h | h <;> simp [requestedName, h, htrim]
  have hmem : MENU_OBJECT ∈ ALLOWED_OBJECTS := by decide
  simp [uploadPdfDirect, hp, hne, hname, hmem]

theorem claim10_default_menu_witness :
    defaultReq.pdfBase64 = some "QUJD" ∧ "QUJD" ≠ "" ∧
    (defaultReq.objectName = none ∨ defaultReq.objectName = some "") ∧
    ((uploadPdfDirect (fun _ => []) defaultReq emptyStore).1.status = 200 ∧
     (uploadPdfDirect (fun _ => []) defaultReq emptyStore).1.ok = true ∧
     (uploadPdfDirect (fun _ => []) defaultReq emptyStore).1.objectName = some MENU_OBJECT ∧
     (uploadPdfDirect (fun _ => []) defaultReq emptyStore).2 MENU_OBJECT = some []) :=
  ⟨rfl, by decide, Or.inl rfl,
    claim10_default_menu (fun _ => []) defaultReq emptyStore "QUJD" rfl
      (by decide) (Or.inl rfl)⟩

end Server
